import Mathlib

/-!
Verification development for the DAP group-consolidation and elimination
engine.  The data model follows the repository's SQL schemas
(`dap_v2/database/schemas/07_consolidation.sql`,
`08_review_workflow.sql`, and the `dap_*` tables in
`docs/DAP_v2.0_开发计划.md`) and the engine code shown in
`docs/FINANCIAL_DRILLDOWN_GUIDE.md` (`GroupHierarchyManager`,
`ConsolidationEngine`).  Monetary amounts (SQL `DECIMAL(20,2)`) are
modelled as rationals.
-/

namespace DAP

/-- The eight elimination categories, in the fixed order used by
`ConsolidationEngine.generate_elimination_entries` (steps 1-8). -/
inductive EliminationCategory where
  | equityInvestment
  | internalDebt
  | inventoryProfit
  | fixedAssets
  | intangibleAssets
  | retainedEarnings
  | impairment
  | cashFlow
deriving DecidableEq, Repr

/-- `elimination_step INTEGER  -- 抵消步骤 1-8` of `elimination_entries`. -/
def EliminationCategory.stepNumber : EliminationCategory → Nat
  | .equityInvestment => 1
  | .internalDebt => 2
  | .inventoryProfit => 3
  | .fixedAssets => 4
  | .intangibleAssets => 5
  | .retainedEarnings => 6
  | .impairment => 7
  | .cashFlow => 8

/-- `source_type VARCHAR(20) DEFAULT 'AUTO'  -- AUTO/MANUAL` of
`elimination_entries`. -/
inductive EntrySource where
  | auto
  | manual
deriving DecidableEq, Repr

/-- One row of `elimination_entries` (07_consolidation.sql): an
elimination category / step, the investor/investee pair, a debit
account with its amount and a credit account with its amount, and the
provenance. -/
structure EliminationEntry where
  category : EliminationCategory
  investorEntityId : String
  investeeEntityId : String
  debitAccountCode : String
  debitAmount : ℚ
  creditAccountCode : String
  creditAmount : ℚ
  sourceType : EntrySource
deriving DecidableEq, Repr

/-- Inserting a row into `elimination_entries` is guarded by
`CONSTRAINT check_balance CHECK (debit_amount = credit_amount)`
(07_consolidation.sql line 80): an unbalanced row is rejected and the
stored set of entries is unchanged. -/
def insertEliminationEntry (entries : List EliminationEntry) (e : EliminationEntry) :
    Option (List EliminationEntry) :=
  if e.debitAmount = e.creditAmount then some (entries ++ [e]) else none

/-- **C1.** Every `EliminationEntry` a `ConsolidationRun` stores has its
debit amount exactly equal to its credit amount, and constructing
(inserting) an entry with unequal debit and credit amounts is
impossible: the `check_balance` constraint rejects it, for every
elimination step and for both `auto` and `manual` provenance (both are
arbitrary in the statement). -/
theorem elimination_balance_invariant (entries entries' : List EliminationEntry)
    (e : EliminationEntry)
    (hprev : ∀ x ∈ entries, x.debitAmount = x.creditAmount)
    (hins : insertEliminationEntry entries e = some entries') :
    (∀ x ∈ entries', x.debitAmount = x.creditAmount) ∧
    (∀ f : EliminationEntry, f.debitAmount ≠ f.creditAmount →
      insertEliminationEntry entries f = none) := by
  unfold insertEliminationEntry at hins
  by_cases hbal : e.debitAmount = e.creditAmount
  · simp only [hbal, if_pos] at hins
    have heq : entries ++ [e] = entries' := Option.some.inj hins
    subst heq
    refine ⟨?_, ?_⟩
    · intro x hx
      rcases List.mem_append.mp hx with h | h
      · exact hprev x h
      · rcases List.mem_singleton.mp h with rfl
        exact hbal
    · intro f hf
      unfold insertEliminationEntry
      simp [hf]
  · simp [hbal] at hins

/-- Witness for C1: inserting a concrete balanced entry into the empty
store succeeds and both conclusions hold there. -/
theorem elimination_balance_invariant_witness :
    (∀ x ∈ ([⟨.internalDebt, "P", "S", "2202", 100, "1122", 100, .auto⟩] :
        List EliminationEntry), x.debitAmount = x.creditAmount) ∧
    (∀ f : EliminationEntry, f.debitAmount ≠ f.creditAmount →
      insertEliminationEntry [] f = none) :=
  elimination_balance_invariant []
    [⟨.internalDebt, "P", "S", "2202", 100, "1122", 100, .auto⟩]
    ⟨.internalDebt, "P", "S", "2202", 100, "1122", 100, .auto⟩
    (by intro x hx; simp at hx) (by decide)

/-- One row of `equity_relations` (08_review_workflow.sql): a directed
ownership edge investor→investee with an ownership percentage. -/
structure EquityRelation where
  investorEntityId : String
  investeeEntityId : String
  ownershipPercentage : ℚ
deriving DecidableEq, Repr

/-- Direct investees of `x` in the stored edge set. -/
def successors (g : List EquityRelation) (x : String) : List String :=
  (g.filter (fun r => r.investorEntityId == x)).map (·.investeeEntityId)

/-- Fuelled reachability along ownership edges. -/
def reachableWithin (g : List EquityRelation) : Nat → String → String → Bool
  | 0, src, dst => src == dst
  | fuel + 1, src, dst =>
    src == dst || (successors g src).any (fun y => reachableWithin g fuel y dst)

/-- Reachability in the stored graph; a path visits at most one edge of
`g` per step, so fuel `g.length` suffices. -/
def reachable (g : List EquityRelation) (src dst : String) : Bool :=
  reachableWithin g g.length src dst

/-- The add-edge operation.  The self-loop and percentage guards are the
row constraints `check_not_self_investment` and `check_ownership` of
`equity_relations` (08_review_workflow.sql).  Modelled from the spec:
the cycle guard (reachability from investee back to investor tested
before insertion, §4.1) has no implementation under `src/`.  On any
rejection the stored graph is returned unchanged with a `false` flag. -/
def addOwnershipEdge (g : List EquityRelation) (e : EquityRelation) :
    Bool × List EquityRelation :=
  if e.investeeEntityId = e.investorEntityId then (false, g)
  else if e.ownershipPercentage < 0 ∨ 100 < e.ownershipPercentage then (false, g)
  else if reachable g e.investeeEntityId e.investorEntityId then (false, g)
  else (true, e :: g)

/-- **C3.** The add-edge operation rejects the insertion when the
investee equals the investor, when the ownership percentage lies
outside `[0,100]`, or when the investee can already reach the investor
(so the new edge would close a cycle); on any such rejection the
stored graph is unchanged. -/
theorem add_edge_rejection (g : List EquityRelation) (e : EquityRelation)
    (h : e.investeeEntityId = e.investorEntityId ∨
         e.ownershipPercentage < 0 ∨ 100 < e.ownershipPercentage ∨
         reachable g e.investeeEntityId e.investorEntityId = true) :
    addOwnershipEdge g e = (false, g) := by
  unfold addOwnershipEdge
  rcases h with h | h | h | h
  · simp [h]
  · by_cases hself : e.investeeEntityId = e.investorEntityId
    · simp [hself]
    · simp [hself, h]
  · by_cases hself : e.investeeEntityId = e.investorEntityId
    · simp [hself]
    · simp [hself, h]
  · by_cases hself : e.investeeEntityId = e.investorEntityId
    · simp [hself]
    · by_cases hpct : e.ownershipPercentage < 0 ∨ 100 < e.ownershipPercentage
      · simp [hself, hpct]
      · simp [hself, hpct, h]

/-- Witness for C3: with the stored edge A→B (60%), inserting B as an
investor of A would close a cycle and is rejected with the graph
unchanged. -/
theorem add_edge_rejection_witness :
    addOwnershipEdge [⟨"A", "B", 60⟩] ⟨"B", "A", 50⟩ =
      (false, [⟨"A", "B", 60⟩]) :=
  add_edge_rejection [⟨"A", "B", 60⟩] ⟨"B", "A", 50⟩
    (Or.inr (Or.inr (Or.inr (by decide))))

/-- One row of `dap_group_entities` (docs/DAP_v2.0_开发计划.md): a single
`parent_entity_id` field and a `level` with `CHECK(level BETWEEN 1 AND 6)`. -/
structure GroupEntity where
  entityId : String
  parentEntityId : Option String
  level : Nat
deriving DecidableEq, Repr

/-- `GroupHierarchyManager.get_entity_level` of the hierarchy store. -/
def getEntityLevel (store : List GroupEntity) (id : String) : Option Nat :=
  (store.find? (fun e => e.entityId == id)).map (·.level)

/-- `GroupHierarchyManager.add_entity`
(docs/FINANCIAL_DRILLDOWN_GUIDE.md): if the entity has a parent whose
level is already ≥ 6 the insert is rejected with the max-level error;
otherwise the entity is stored with level = parent level + 1, or
level 1 when it has no parent. -/
def addEntity (store : List GroupEntity) (entityId : String)
    (parentEntityId : Option String) : Except String (List GroupEntity) :=
  match parentEntityId with
  | some pid =>
    match getEntityLevel store pid with
    | none => .error "parent entity not found"
    | some pl =>
      if 6 ≤ pl then .error "maximum hierarchy depth (6 levels) reached"
      else .ok (store ++ [⟨entityId, some pid, pl + 1⟩])
  | none => .ok (store ++ [⟨entityId, none, 1⟩])

/-- Entities whose stored `parent_entity_id` is `id`. -/
def childrenOf (store : List GroupEntity) (id : String) : List String :=
  (store.filter (fun e => e.parentEntityId == some id)).map (·.entityId)

/-- The subtree below `root` paired with each member's depth relative to
the root (root at depth 1), computed by a fuelled walk of the
`parent_entity_id` links. -/
def subtreeDepths (store : List GroupEntity) : Nat → String → Nat → List (String × Nat)
  | 0, _, _ => []
  | fuel + 1, root, d =>
    (root, d) ::
      ((childrenOf store root).map (fun c => subtreeDepths store fuel c (d + 1))).flatten

/-- Structural failures of the Scope Resolver. -/
inductive ScopeError where
  | depthExceeded
  | cycleDetected
deriving DecidableEq, Repr

/-- Modelled from the spec: `resolve_scope` of the Scope Resolver (§4.1)
has no implementation under `src/`; per the spec it walks the scope
from the root and fails with a policy error — returning no partial
scope — as soon as the depth exceeds the configured maximum of 6. -/
def resolveScope (store : List GroupEntity) (root : String) :
    Except ScopeError (List (String × Nat)) :=
  let s := subtreeDepths store store.length root 1
  if s.any (fun p => 6 < p.2) then .error .depthExceeded else .ok s

/-- **C7.** When the stored subtree below `root` contains an entity at
relative depth exceeding 6, the Scope Resolver fails with the
depth-policy error and returns no partial scope (the error result
carries no scope at all); correspondingly, `add_entity` rejects an
insertion whose parent is already at level 6. -/
theorem depth_limit_enforced (store : List GroupEntity) (eid pid root : String)
    (pl : Nat) (hpl : getEntityLevel store pid = some pl) (h6 : 6 ≤ pl)
    (hdeep : ∃ p ∈ subtreeDepths store store.length root 1, 6 < p.2) :
    addEntity store eid (some pid) =
      .error "maximum hierarchy depth (6 levels) reached" ∧
    resolveScope store root = .error .depthExceeded := by
  constructor
  · simp only [addEntity, hpl]
    simp [h6]
  · unfold resolveScope
    have : (subtreeDepths store store.length root 1).any (fun p => 6 < p.2) = true := by
      rcases hdeep with ⟨p, hp, hgt⟩
      exact List.any_eq_true.mpr ⟨p, hp, decide_eq_true hgt⟩
    simp [this]

/-- A concrete depth-7 ownership chain c1 → c2 → … → c7. -/
def chain7 : List GroupEntity :=
  [⟨"c1", none, 1⟩, ⟨"c2", some "c1", 2⟩, ⟨"c3", some "c2", 3⟩,
   ⟨"c4", some "c3", 4⟩, ⟨"c5", some "c4", 5⟩, ⟨"c6", some "c5", 6⟩,
   ⟨"c7", some "c6", 7⟩]

/-- Witness for C7: on the depth-7 chain, adding a child of the level-6
entity is rejected and scope resolution from the root fails with the
depth policy error. -/
theorem depth_limit_enforced_witness :
    addEntity chain7 "c7b" (some "c6") =
      .error "maximum hierarchy depth (6 levels) reached" ∧
    resolveScope chain7 "c1" = .error .depthExceeded :=
  depth_limit_enforced chain7 "c7b" "c6" "c1" 6 (by decide) (by decide)
    ⟨("c7", 7), by decide, by decide⟩

/-- `dap_consolidations.status CHECK(status IN ('draft', 'in_progress',
'completed', 'approved'))` (docs/DAP_v2.0_开发计划.md). -/
inductive RunStatus where
  | draft
  | inProgress
  | completed
  | approved
deriving DecidableEq, Repr

/-- A consolidation run record with its status and the aggregated
consolidated debit/credit balances handed to the Balance Validator.
The balances are `DECIMAL(20,2)` amounts expressed as an integer
number of cents (hundredths of the currency unit). -/
structure ConsolidationRun where
  status : RunStatus
  consolidatedDebits : List ℤ
  consolidatedCredits : List ℤ
deriving DecidableEq, Repr

/-- The debit/credit balance check of docs/DRILLDOWN_AUDIT_REPORT.md
§7.2: `is_balanced = abs(total_debit - total_credit) < 0.01`, the
0.01-currency-unit tolerance being 1 in cents. -/
def isBalanced (debits credits : List ℤ) : Bool :=
  decide (|debits.sum - credits.sum| < 1)

/-- Structural-integrity failure carrying the specific imbalance. -/
inductive RunError where
  | structuralIntegrity (imbalance : ℤ)
deriving DecidableEq, Repr

/-- Modelled from the spec: the transition of a run to `completed` has
no implementation under `src/`; per §4.5 a balance-validation
violation fails the run with a structural-integrity error and blocks
it from reaching `completed`, never silently approximating. -/
def completeRun (r : ConsolidationRun) : Except RunError ConsolidationRun :=
  if isBalanced r.consolidatedDebits r.consolidatedCredits then
    .ok { r with status := .completed }
  else
    .error (.structuralIntegrity
      (r.consolidatedDebits.sum - r.consolidatedCredits.sum))

/-- **C5.** The Balance Validator accepts exactly when the sum of all
consolidated debit balances equals the sum of all consolidated credit
balances within the 0.01 tolerance; a violation fails the run with a
structural-integrity error carrying the imbalance, and a run can reach
`completed` status only when the check passes. -/
theorem balance_validation_gates_completion (r : ConsolidationRun) :
    (isBalanced r.consolidatedDebits r.consolidatedCredits = true ↔
      |r.consolidatedDebits.sum - r.consolidatedCredits.sum| < 1) ∧
    (isBalanced r.consolidatedDebits r.consolidatedCredits = false →
      completeRun r = .error (.structuralIntegrity
        (r.consolidatedDebits.sum - r.consolidatedCredits.sum))) ∧
    (∀ r', completeRun r = .ok r' →
      r'.status = .completed ∧
      isBalanced r.consolidatedDebits r.consolidatedCredits = true) := by
  refine ⟨by simp [isBalanced], ?_, ?_⟩
  · intro hfail
    unfold completeRun
    simp [hfail]
  · intro r' hok
    unfold completeRun at hok
    by_cases hbal : isBalanced r.consolidatedDebits r.consolidatedCredits
    · simp only [hbal, if_pos] at hok
      exact ⟨by rw [← Except.ok.inj hok], hbal⟩
    · simp [hbal] at hok

/-- Witness for C5: an imbalance of exactly one cent (debits 10000,
credits 9999) fails completion with the structural error, and a
balanced run completes. -/
theorem balance_validation_gates_completion_witness :
    completeRun ⟨.inProgress, [10000], [9999]⟩ =
      .error (.structuralIntegrity (([(10000 : ℤ)].sum) - ([(9999 : ℤ)].sum))) ∧
    ((⟨.completed, [6000, 4000], [10000]⟩ : ConsolidationRun).status = .completed ∧
      isBalanced [6000, 4000] [10000] = true) :=
  ⟨(balance_validation_gates_completion ⟨.inProgress, [10000], [9999]⟩).2.1
      (by decide),
   (balance_validation_gates_completion ⟨.inProgress, [6000, 4000], [10000]⟩).2.2
      ⟨.completed, [6000, 4000], [10000]⟩ (by rfl)⟩

/-- Modelled from the spec: `_eliminate_equity_investment` (step 1,
§4.3) has no implementation under `src/`; per the spec it eliminates
the investor's investment against the investee's equity proportionally
to the ownership percentage and records the non-owned remainder as a
minority-interest balance.  Returns the step-1 entry together with the
minority-interest amount. -/
def eliminateEquityInvestment (investorId investeeId : String)
    (pct equity : ℚ) : EliminationEntry × ℚ :=
  (⟨.equityInvestment, investorId, investeeId,
    "4001", pct / 100 * equity, "1511", pct / 100 * equity, .auto⟩,
   (100 - pct) / 100 * equity)

/-- Modelled from the spec: Balance Validator check (c) of §4.5 —
minority-interest balances must be non-negative — has no
implementation under `src/`. -/
def validateMinorityInterests (ms : List ℚ) : Bool :=
  ms.all (fun m => decide (0 ≤ m))

/-- **C9.** With R owning 60% of S, step 1 eliminates exactly 60% of
S's equity against R's investment (debit and credit both 60% of the
equity), and the remainder recorded as minority interest equals 40% of
S's equity and is non-negative (for non-negative equity); in general
the minority-interest validation passes exactly when every
minority-interest balance is non-negative. -/
theorem minority_interest_sixty_forty (E : ℚ) (hE : 0 ≤ E) :
    (eliminateEquityInvestment "R" "S" 60 E).1.debitAmount = 60 / 100 * E ∧
    (eliminateEquityInvestment "R" "S" 60 E).1.creditAmount = 60 / 100 * E ∧
    (eliminateEquityInvestment "R" "S" 60 E).2 = 40 / 100 * E ∧
    0 ≤ (eliminateEquityInvestment "R" "S" 60 E).2 ∧
    (∀ ms : List ℚ, validateMinorityInterests ms = true ↔ ∀ m ∈ ms, 0 ≤ m) := by
  refine ⟨rfl, rfl, by norm_num [eliminateEquityInvestment], ?_, ?_⟩
  · have h40 : (0 : ℚ) ≤ (100 - 60) / 100 := by norm_num
    exact mul_nonneg h40 hE
  · intro ms
    simp [validateMinorityInterests, List.all_eq_true]

/-- Witness for C9: S's equity is 1000; step 1 eliminates 600 on both
sides and the minority interest is 400 ≥ 0. -/
theorem minority_interest_sixty_forty_witness :
    (eliminateEquityInvestment "R" "S" 60 1000).1.debitAmount = 60 / 100 * 1000 ∧
    (eliminateEquityInvestment "R" "S" 60 1000).1.creditAmount = 60 / 100 * 1000 ∧
    (eliminateEquityInvestment "R" "S" 60 1000).2 = 40 / 100 * 1000 ∧
    0 ≤ (eliminateEquityInvestment "R" "S" 60 1000).2 ∧
    (∀ ms : List ℚ, validateMinorityInterests ms = true ↔ ∀ m ∈ ms, 0 ≤ m) :=
  minority_interest_sixty_forty 1000 (by decide)

/-- One ledger-detail line with auxiliary (counterparty) accounting, as
returned by `get_account_details(..., has_auxiliary=True)` in
docs/FINANCIAL_DRILLDOWN_GUIDE.md. -/
structure AuxiliaryItem where
  auxiliaryAccount : String
  balance : ℚ
deriving DecidableEq, Repr

/-- Modelled from the spec: `_is_internal_transaction` is called in the
guide but its body is not under `src/`; per §4.2 the counterparty
reference recorded on each side must identify the other entity. -/
def isInternalTransaction (cp1 cp2 parentName childName : String) : Bool :=
  cp1 == childName && cp2 == parentName

/-- The matching loop of
`ConsolidationEngine._eliminate_internal_receivables`
(docs/FINANCIAL_DRILLDOWN_GUIDE.md): one parent receivable line is
matched against the child's payable lines; each match emits an entry
for `amount = min(parent_item.balance, child_item.balance)` debiting
payables (2202) and crediting receivables (1122), then reduces both
running balances by that amount.  Returns (entries, updated parent
line, updated child lines). -/
def matchReceivable (parentId childId parentName childName : String)
    (p : AuxiliaryItem) :
    List AuxiliaryItem →
      List EliminationEntry × AuxiliaryItem × List AuxiliaryItem
  | [] => ([], p, [])
  | c :: cs =>
    if isInternalTransaction p.auxiliaryAccount c.auxiliaryAccount
        parentName childName then
      let amount := min p.balance c.balance
      let e : EliminationEntry :=
        ⟨.internalDebt, parentId, childId, "2202", amount, "1122", amount, .auto⟩
      let rest := matchReceivable parentId childId parentName childName
        ⟨p.auxiliaryAccount, p.balance - amount⟩ cs
      (e :: rest.1, rest.2.1, ⟨c.auxiliaryAccount, c.balance - amount⟩ :: rest.2.2)
    else
      let rest := matchReceivable parentId childId parentName childName p cs
      (rest.1, rest.2.1, c :: rest.2.2)

/-- A reconciliation warning for an unmatched residual balance. -/
structure ReconciliationWarning where
  auxiliaryAccount : String
  residual : ℚ
deriving DecidableEq, Repr

/-- Step 2 of the generator for one entity pair.  The matching itself is
`matchReceivable` from the guide.  Modelled from the spec: the flagging
of residuals (§4.3 step 2 — any unmatched remainder is left on the
consolidated balance and surfaced as a reconciliation warning, not
silently dropped) is not under `src/`. -/
def eliminateInternalReceivables (parentId childId parentName childName : String)
    (p : AuxiliaryItem) (cs : List AuxiliaryItem) :
    List EliminationEntry × AuxiliaryItem × List AuxiliaryItem ×
      List ReconciliationWarning :=
  let r := matchReceivable parentId childId parentName childName p cs
  (r.1, r.2.1, r.2.2,
    (if 0 < r.2.1.balance then [⟨r.2.1.auxiliaryAccount, r.2.1.balance⟩] else []) ++
      (r.2.2.filter (fun c => 0 < c.balance)).map
        (fun c => ⟨c.auxiliaryAccount, c.balance⟩))

lemma matchReceivable_entries_balanced (parentId childId parentName childName : String)
    (cs : List AuxiliaryItem) :
    ∀ p, ∀ e ∈ (matchReceivable parentId childId parentName childName p cs).1,
      e.debitAmount = e.creditAmount := by
  induction cs with
  | nil => intro p e he; simp [matchReceivable] at he
  | cons c cs ih =>
    intro p e he
    by_cases hm : isInternalTransaction p.auxiliaryAccount c.auxiliaryAccount
        parentName childName
    · simp only [matchReceivable, hm, if_pos] at he
      rcases List.mem_cons.mp he with rfl | h
      · rfl
      · exact ih _ e h
    · simp only [matchReceivable, hm] at he
      simp at he
      exact ih _ e he

lemma matchReceivable_parent_aux (parentId childId parentName childName : String)
    (cs : List AuxiliaryItem) :
    ∀ p, (matchReceivable parentId childId parentName childName p cs).2.1.auxiliaryAccount =
      p.auxiliaryAccount := by
  induction cs with
  | nil => intro p; simp [matchReceivable]
  | cons c cs ih =>
    intro p
    by_cases hm : isInternalTransaction p.auxiliaryAccount c.auxiliaryAccount
        parentName childName
    · simp only [matchReceivable, hm, if_pos]
      exact ih _
    · simp only [matchReceivable, hm, if_neg, Bool.false_eq_true, not_false_iff]
      exact ih _

lemma matchReceivable_parent_residual (parentId childId parentName childName : String)
    (cs : List AuxiliaryItem) :
    ∀ p, (matchReceivable parentId childId parentName childName p cs).2.1.balance =
      p.balance -
        (((matchReceivable parentId childId parentName childName p cs).1).map
          (·.debitAmount)).sum := by
  induction cs with
  | nil => intro p; simp [matchReceivable]
  | cons c cs ih =>
    intro p
    by_cases hm : isInternalTransaction p.auxiliaryAccount c.auxiliaryAccount
        parentName childName
    · simp only [matchReceivable, hm, if_pos, List.map_cons, List.sum_cons]
      rw [ih]
      ring
    · simp only [matchReceivable, hm, if_neg, Bool.false_eq_true, not_false_iff]
      exact ih _

lemma matchReceivable_parent_nonneg (parentId childId parentName childName : String)
    (cs : List AuxiliaryItem) :
    ∀ p : AuxiliaryItem, 0 ≤ p.balance →
      0 ≤ (matchReceivable parentId childId parentName childName p cs).2.1.balance := by
  induction cs with
  | nil => intro p hp; simpa [matchReceivable] using hp
  | cons c cs ih =>
    intro p hp
    by_cases hm : isInternalTransaction p.auxiliaryAccount c.auxiliaryAccount
        parentName childName
    · simp only [matchReceivable, hm, if_pos]
      exact ih _ (sub_nonneg.mpr (min_le_left _ _))
    · simp only [matchReceivable, hm, if_neg, Bool.false_eq_true, not_false_iff]
      exact ih _ hp

lemma matchReceivable_children_nonneg (parentId childId parentName childName : String)
    (cs : List AuxiliaryItem) :
    ∀ p, (∀ c ∈ cs, (0:ℚ) ≤ c.balance) →
      ∀ c' ∈ (matchReceivable parentId childId parentName childName p cs).2.2,
        0 ≤ c'.balance := by
  induction cs with
  | nil => intro p _ c' hc'; simp [matchReceivable] at hc'
  | cons c cs ih =>
    intro p hcs c' hc'
    by_cases hm : isInternalTransaction p.auxiliaryAccount c.auxiliaryAccount
        parentName childName
    · simp only [matchReceivable, hm, if_pos] at hc'
      rcases List.mem_cons.mp hc' with rfl | h
      · exact sub_nonneg.mpr (min_le_right _ _)
      · exact ih _ (fun x hx => hcs x (List.mem_cons_of_mem _ hx)) c' h
    · simp only [matchReceivable, hm, if_neg, Bool.false_eq_true, not_false_iff] at hc'
      rcases List.mem_cons.mp hc' with rfl | h
      · exact hcs c' (List.mem_cons_self _ _)
      · exact ih _ (fun x hx => hcs x (List.mem_cons_of_mem _ hx)) c' h

lemma matchReceivable_children_length (parentId childId parentName childName : String)
    (cs : List AuxiliaryItem) :
    ∀ p, (matchReceivable parentId childId parentName childName p cs).2.2.length =
      cs.length := by
  induction cs with
  | nil => intro p; simp [matchReceivable]
  | cons c cs ih =>
    intro p
    by_cases hm : isInternalTransaction p.auxiliaryAccount c.auxiliaryAccount
        parentName childName
    · simp only [matchReceivable, hm, if_pos, List.length_cons]
      rw [ih]
    · simp only [matchReceivable, hm, if_neg, Bool.false_eq_true, not_false_iff,
        List.length_cons]
      rw [ih]

/-- **C8.** For an auto/confirmed receivable↔payable match, the generator
eliminates both sides by exactly the matched amount — the minimum of
the two sides' balances at match time (stated for the head match) —
every emitted step-2 entry is balanced, the residual remainder is left
on the balances (parent residual = initial balance minus total
eliminated; no payable line is dropped; residuals stay non-negative),
and every positive residual is flagged as a reconciliation warning. -/
theorem internal_debt_elimination (parentId childId parentName childName : String)
    (p : AuxiliaryItem) (cs : List AuxiliaryItem)
    (hp : 0 ≤ p.balance) (hcs : ∀ c ∈ cs, (0:ℚ) ≤ c.balance) :
    (∀ e ∈ (eliminateInternalReceivables parentId childId parentName childName p cs).1,
        e.debitAmount = e.creditAmount) ∧
    (∀ c₀ cs₀, isInternalTransaction p.auxiliaryAccount c₀.auxiliaryAccount
        parentName childName = true →
      (matchReceivable parentId childId parentName childName p (c₀ :: cs₀)).1.head? =
        some ⟨.internalDebt, parentId, childId, "2202", min p.balance c₀.balance,
          "1122", min p.balance c₀.balance, .auto⟩) ∧
    ((eliminateInternalReceivables parentId childId parentName childName p cs).2.1.balance =
      p.balance -
        (((eliminateInternalReceivables parentId childId parentName childName p cs).1).map
          (·.debitAmount)).sum) ∧
    (0 ≤ (eliminateInternalReceivables parentId childId parentName childName p cs).2.1.balance) ∧
    (∀ c' ∈ (eliminateInternalReceivables parentId childId parentName childName p cs).2.2.1,
        0 ≤ c'.balance) ∧
    ((eliminateInternalReceivables parentId childId parentName childName p cs).2.2.1.length =
      cs.length) ∧
    (0 < (eliminateInternalReceivables parentId childId parentName childName p cs).2.1.balance →
      (⟨(eliminateInternalReceivables parentId childId parentName childName p cs).2.1.auxiliaryAccount,
        (eliminateInternalReceivables parentId childId parentName childName p cs).2.1.balance⟩ :
          ReconciliationWarning) ∈
        (eliminateInternalReceivables parentId childId parentName childName p cs).2.2.2) ∧
    (∀ c' ∈ (eliminateInternalReceivables parentId childId parentName childName p cs).2.2.1,
      0 < c'.balance →
      (⟨c'.auxiliaryAccount, c'.balance⟩ : ReconciliationWarning) ∈
        (eliminateInternalReceivables parentId childId parentName childName p cs).2.2.2) := by
  refine ⟨?_, ?_, ?_, ?_, ?_, ?_, ?_, ?_⟩
  · intro e he
    exact matchReceivable_entries_balanced parentId childId parentName childName cs p e he
  · intro c₀ cs₀ hm
    simp [matchReceivable, hm]
  · exact matchReceivable_parent_residual parentId childId parentName childName cs p
  · exact matchReceivable_parent_nonneg parentId childId parentName childName cs p hp
  · intro c' hc'
    exact matchReceivable_children_nonneg parentId childId parentName childName cs p hcs c' hc'
  · exact matchReceivable_children_length parentId childId parentName childName cs p
  · intro hpos
    have hpos' : 0 < (matchReceivable parentId childId parentName childName p cs).2.1.balance :=
      hpos
    unfold eliminateInternalReceivables
    simp only [hpos', if_pos, List.mem_append]
    left
    simp
  · intro c' hc' hpos
    unfold eliminateInternalReceivables
    simp only [List.mem_append]
    right
    refine List.mem_map.mpr ⟨c', List.mem_filter.mpr ⟨hc', decide_eq_true hpos⟩, rfl⟩

/-- Witness for C8: parent P holds a 10000 receivable naming S, S holds
an 8000 payable naming P; all conclusions hold there (the match
eliminates 8000 = min(10000, 8000) and a 2000 residual remains
flagged). -/
theorem internal_debt_elimination_witness :
    (∀ e ∈ (eliminateInternalReceivables "p1" "s1" "P" "S" ⟨"S", 10000⟩
        [⟨"P", 8000⟩]).1, e.debitAmount = e.creditAmount) ∧
    (∀ c₀ cs₀, isInternalTransaction "S" c₀.auxiliaryAccount "P" "S" = true →
      (matchReceivable "p1" "s1" "P" "S" ⟨"S", 10000⟩ (c₀ :: cs₀)).1.head? =
        some ⟨.internalDebt, "p1", "s1", "2202", min (10000:ℚ) c₀.balance,
          "1122", min (10000:ℚ) c₀.balance, .auto⟩) ∧
    ((eliminateInternalReceivables "p1" "s1" "P" "S" ⟨"S", 10000⟩
        [⟨"P", 8000⟩]).2.1.balance =
      10000 - (((eliminateInternalReceivables "p1" "s1" "P" "S" ⟨"S", 10000⟩
        [⟨"P", 8000⟩]).1).map (·.debitAmount)).sum) ∧
    (0 ≤ (eliminateInternalReceivables "p1" "s1" "P" "S" ⟨"S", 10000⟩
        [⟨"P", 8000⟩]).2.1.balance) ∧
    (∀ c' ∈ (eliminateInternalReceivables "p1" "s1" "P" "S" ⟨"S", 10000⟩
        [⟨"P", 8000⟩]).2.2.1, 0 ≤ c'.balance) ∧
    ((eliminateInternalReceivables "p1" "s1" "P" "S" ⟨"S", 10000⟩
        [⟨"P", 8000⟩]).2.2.1.length = 1) ∧
    (0 < (eliminateInternalReceivables "p1" "s1" "P" "S" ⟨"S", 10000⟩
        [⟨"P", 8000⟩]).2.1.balance →
      (⟨(eliminateInternalReceivables "p1" "s1" "P" "S" ⟨"S", 10000⟩
          [⟨"P", 8000⟩]).2.1.auxiliaryAccount,
        (eliminateInternalReceivables "p1" "s1" "P" "S" ⟨"S", 10000⟩
          [⟨"P", 8000⟩]).2.1.balance⟩ : ReconciliationWarning) ∈
        (eliminateInternalReceivables "p1" "s1" "P" "S" ⟨"S", 10000⟩
          [⟨"P", 8000⟩]).2.2.2) ∧
    (∀ c' ∈ (eliminateInternalReceivables "p1" "s1" "P" "S" ⟨"S", 10000⟩
        [⟨"P", 8000⟩]).2.2.1, 0 < c'.balance →
      (⟨c'.auxiliaryAccount, c'.balance⟩ : ReconciliationWarning) ∈
        (eliminateInternalReceivables "p1" "s1" "P" "S" ⟨"S", 10000⟩
          [⟨"P", 8000⟩]).2.2.2) :=
  internal_debt_elimination "p1" "s1" "P" "S" ⟨"S", 10000⟩ [⟨"P", 8000⟩]
    (by decide) (by intro c hc; simp at hc; rw [hc]; decide)

/-- The inputs of `ConsolidationEngine.generate_elimination_entries`
for one investor/investee pair: ownership data, the receivable/payable
detail lines for step 2, and the per-category amounts consumed by the
remaining steps. -/
structure GenInput where
  parentId : String
  childId : String
  parentName : String
  childName : String
  holdingPct : ℚ
  childEquity : ℚ
  parentReceivable : AuxiliaryItem
  childPayables : List AuxiliaryItem
  internalSales : List ℚ
  fixedAssetGains : List ℚ
  intangibleGains : List ℚ
  priorCumulative : List ℚ
  impairmentProvisions : List ℚ
  intercompanyCashFlows : List ℚ

/-- A balanced auto adjustment entry of the given category. -/
def mkAdjustment (cat : EliminationCategory) (investorId investeeId : String)
    (debitAcct creditAcct : String) (a : ℚ) : EliminationEntry :=
  ⟨cat, investorId, investeeId, debitAcct, a, creditAcct, a, .auto⟩

/-- Step 1 — `_eliminate_equity_investment`. -/
def step1EliminateEquityInvestment (inp : GenInput) : List EliminationEntry :=
  [(eliminateEquityInvestment inp.parentId inp.childId inp.holdingPct inp.childEquity).1]

/-- Step 2 — `_eliminate_internal_receivables` (matching loop from the
guide). -/
def step2EliminateInternalReceivables (inp : GenInput) : List EliminationEntry :=
  (matchReceivable inp.parentId inp.childId inp.parentName inp.childName
    inp.parentReceivable inp.childPayables).1

/-- Modelled from the spec: step 3 `_eliminate_internal_inventory_profit`
(unrealized profit in inventory, §4.3) is not under `src/`. -/
def step3EliminateInventoryProfit (inp : GenInput) : List EliminationEntry :=
  inp.internalSales.map (mkAdjustment .inventoryProfit inp.parentId inp.childId "6001" "1405")

/-- Modelled from the spec: step 4 `_eliminate_internal_fixed_assets`
(§4.3) is not under `src/`. -/
def step4EliminateFixedAssets (inp : GenInput) : List EliminationEntry :=
  inp.fixedAssetGains.map (mkAdjustment .fixedAssets inp.parentId inp.childId "6051" "1601")

/-- Modelled from the spec: step 5 `_eliminate_internal_intangible_assets`
(§4.3) is not under `src/`. -/
def step5EliminateIntangibleAssets (inp : GenInput) : List EliminationEntry :=
  inp.intangibleGains.map (mkAdjustment .intangibleAssets inp.parentId inp.childId "6051" "1701")

/-- Modelled from the spec: step 6 `_adjust_retained_earnings` (§4.3,
prior-period cumulative effect proportioned by ownership percentage)
is not under `src/`. -/
def step6AdjustRetainedEarnings (inp : GenInput) : List EliminationEntry :=
  inp.priorCumulative.map
    (fun a => mkAdjustment .retainedEarnings inp.parentId inp.childId "4104" "4103"
      (inp.holdingPct / 100 * a))

/-- Modelled from the spec: step 7 `_eliminate_impairment_provisions`
(§4.3) is not under `src/`. -/
def step7EliminateImpairment (inp : GenInput) : List EliminationEntry :=
  inp.impairmentProvisions.map (mkAdjustment .impairment inp.parentId inp.childId "1231" "6701")

/-- Modelled from the spec: step 8 `_eliminate_cash_flow_items` (§4.3)
is not under `src/`. -/
def step8EliminateCashFlow (inp : GenInput) : List EliminationEntry :=
  inp.intercompanyCashFlows.map (mkAdjustment .cashFlow inp.parentId inp.childId "1002" "1002")

/-- `ConsolidationEngine.generate_elimination_entries`
(docs/FINANCIAL_DRILLDOWN_GUIDE.md): the eight steps, concatenated in
the fixed order 1–8. -/
def generateEliminationEntries (inp : GenInput) : List EliminationEntry :=
  step1EliminateEquityInvestment inp ++
  step2EliminateInternalReceivables inp ++
  step3EliminateInventoryProfit inp ++
  step4EliminateFixedAssets inp ++
  step5EliminateIntangibleAssets inp ++
  step6AdjustRetainedEarnings inp ++
  step7EliminateImpairment inp ++
  step8EliminateCashFlow inp

lemma map_stepNumber_const {β : Type} (cat : EliminationCategory)
    (g : β → EliminationEntry) (hg : ∀ b, (g b).category = cat) (l : List β) :
    (l.map g).map (fun e => e.category.stepNumber) =
      List.replicate (l.map g).length cat.stepNumber := by
  refine List.eq_replicate_iff.mpr ⟨by simp, ?_⟩
  intro b hb
  rcases List.mem_map.mp hb with ⟨e, he, rfl⟩
  rcases List.mem_map.mp he with ⟨a, ha, rfl⟩
  rw [hg]

lemma matchReceivable_categories (parentId childId parentName childName : String)
    (cs : List AuxiliaryItem) :
    ∀ p, ∀ e ∈ (matchReceivable parentId childId parentName childName p cs).1,
      e.category = .internalDebt := by
  induction cs with
  | nil => intro p e he; simp [matchReceivable] at he
  | cons c cs ih =>
    intro p e he
    by_cases hm : isInternalTransaction p.auxiliaryAccount c.auxiliaryAccount
        parentName childName
    · simp only [matchReceivable, hm, if_pos] at he
      rcases List.mem_cons.mp he with rfl | h
      · rfl
      · exact ih _ e h
    · simp only [matchReceivable, hm] at he
      simp at he
      exact ih _ e he

/-- **C2.** For every input, the Elimination Entry Generator emits its
entries in exactly the fixed order of the eight categories: the
sequence of step numbers of the generated entries is a block of 1s
(equity-investment elimination), then 2s (intercompany debt), then 3s
(unrealized inventory profit), then 4s (fixed assets), 5s
(intangibles), 6s (retained-earnings adjustment), 7s (impairment
provisions) and finally 8s (cash-flow-specific eliminations). -/
theorem generator_fixed_order (inp : GenInput) :
    (generateEliminationEntries inp).map (fun e => e.category.stepNumber) =
      List.replicate (step1EliminateEquityInvestment inp).length 1 ++
      List.replicate (step2EliminateInternalReceivables inp).length 2 ++
      List.replicate (step3EliminateInventoryProfit inp).length 3 ++
      List.replicate (step4EliminateFixedAssets inp).length 4 ++
      List.replicate (step5EliminateIntangibleAssets inp).length 5 ++
      List.replicate (step6AdjustRetainedEarnings inp).length 6 ++
      List.replicate (step7EliminateImpairment inp).length 7 ++
      List.replicate (step8EliminateCashFlow inp).length 8 := by
  have h1 : (step1EliminateEquityInvestment inp).map (fun e => e.category.stepNumber) =
      List.replicate (step1EliminateEquityInvestment inp).length 1 := by
    simp [step1EliminateEquityInvestment, eliminateEquityInvestment,
      EliminationCategory.stepNumber, List.replicate]
  have h2 : (step2EliminateInternalReceivables inp).map (fun e => e.category.stepNumber) =
      List.replicate (step2EliminateInternalReceivables inp).length 2 := by
    refine List.eq_replicate_iff.mpr ⟨by simp, ?_⟩
    intro b hb
    rcases List.mem_map.mp hb with ⟨e, he, rfl⟩
    rw [matchReceivable_categories inp.parentId inp.childId inp.parentName
      inp.childName inp.childPayables inp.parentReceivable e he]
    rfl
  have h3 : (step3EliminateInventoryProfit inp).map (fun e => e.category.stepNumber) =
      List.replicate (step3EliminateInventoryProfit inp).length 3 := by
    unfold step3EliminateInventoryProfit
    exact map_stepNumber_const .inventoryProfit _ (fun b => rfl) inp.internalSales
  have h4 : (step4EliminateFixedAssets inp).map (fun e => e.category.stepNumber) =
      List.replicate (step4EliminateFixedAssets inp).length 4 := by
    unfold step4EliminateFixedAssets
    exact map_stepNumber_const .fixedAssets _ (fun b => rfl) inp.fixedAssetGains
  have h5 : (step5EliminateIntangibleAssets inp).map (fun e => e.category.stepNumber) =
      List.replicate (step5EliminateIntangibleAssets inp).length 5 := by
    unfold step5EliminateIntangibleAssets
    exact map_stepNumber_const .intangibleAssets _ (fun b => rfl) inp.intangibleGains
  have h6 : (step6AdjustRetainedEarnings inp).map (fun e => e.category.stepNumber) =
      List.replicate (step6AdjustRetainedEarnings inp).length 6 := by
    unfold step6AdjustRetainedEarnings
    exact map_stepNumber_const .retainedEarnings _ (fun b => rfl) inp.priorCumulative
  have h7 : (step7EliminateImpairment inp).map (fun e => e.category.stepNumber) =
      List.replicate (step7EliminateImpairment inp).length 7 := by
    unfold step7EliminateImpairment
    exact map_stepNumber_const .impairment _ (fun b => rfl) inp.impairmentProvisions
  have h8 : (step8EliminateCashFlow inp).map (fun e => e.category.stepNumber) =
      List.replicate (step8EliminateCashFlow inp).length 8 := by
    unfold step8EliminateCashFlow
    exact map_stepNumber_const .cashFlow _ (fun b => rfl) inp.intercompanyCashFlows
  unfold generateEliminationEntries
  simp only [List.map_append, h1, h2, h3, h4, h5, h6, h7, h8]

/-- A consolidation scope as a tree: each node carries the entity's own
per-account balances, the signed elimination adjustment postings
generated at that node's level, and the subtrees of its children. -/
inductive EntityTree : Type where
  | node (balances : List (String × ℚ)) (elims : List (String × ℚ))
      (children : List EntityTree)

mutual
/-- `ConsolidationEngine.consolidate_by_hierarchy`
(docs/FINANCIAL_DRILLDOWN_GUIDE.md): bottom-up, each entity combines
its own balances with its children's already-consolidated balances and
applies that level's elimination postings, the result feeding the
parent's round. -/
def consolidateHier : EntityTree → List (String × ℚ)
  | .node bal el cs => bal ++ consolidateHierChildren cs ++ el

/-- Children of a node, each consolidated hierarchically. -/
def consolidateHierChildren : List EntityTree → List (String × ℚ)
  | [] => []
  | t :: ts => consolidateHier t ++ consolidateHierChildren ts
end

mutual
/-- All entity balances of the scope, flattened. -/
def allBalances : EntityTree → List (String × ℚ)
  | .node bal _ cs => bal ++ allBalancesChildren cs

/-- All entity balances of a list of subtrees. -/
def allBalancesChildren : List EntityTree → List (String × ℚ)
  | [] => []
  | t :: ts => allBalances t ++ allBalancesChildren ts
end

mutual
/-- The full elimination set of the scope, flattened. -/
def allElims : EntityTree → List (String × ℚ)
  | .node _ el cs => el ++ allElimsChildren cs

/-- The elimination postings of a list of subtrees. -/
def allElimsChildren : List EntityTree → List (String × ℚ)
  | [] => []
  | t :: ts => allElims t ++ allElimsChildren ts
end

/-- Modelled from the spec: `ConsolidationEngine.consolidate_overall`
(named in docs/DAP_v2.0_开发计划.md, body not under `src/`): flattens
the whole scope in a single pass — sums all entities' balances
directly and applies the full elimination set once, with no
intermediate sub-totals. -/
def consolidateOverall (t : EntityTree) : List (String × ℚ) :=
  allBalances t ++ allElims t

/-- The consolidated total of account `a` in a list of postings. -/
def amountOf (l : List (String × ℚ)) (a : String) : ℚ :=
  ((l.filter (fun p => p.1 == a)).map Prod.snd).sum

lemma amountOf_append (l₁ l₂ : List (String × ℚ)) (a : String) :
    amountOf (l₁ ++ l₂) a = amountOf l₁ a + amountOf l₂ a := by
  simp [amountOf, List.filter_append]

mutual
lemma consolidateHier_amount (t : EntityTree) (a : String) :
    amountOf (consolidateHier t) a =
      amountOf (allBalances t) a + amountOf (allElims t) a :=
  match t with
  | .node bal el cs => by
    rw [consolidateHier, allBalances, allElims, amountOf_append, amountOf_append,
      amountOf_append, amountOf_append, consolidateHierChildren_amount cs a]
    ring

lemma consolidateHierChildren_amount (ts : List EntityTree) (a : String) :
    amountOf (consolidateHierChildren ts) a =
      amountOf (allBalancesChildren ts) a + amountOf (allElimsChildren ts) a :=
  match ts with
  | [] => by
    rw [consolidateHierChildren, allBalancesChildren, allElimsChildren]
    simp [amountOf]
  | t :: ts => by
    rw [consolidateHierChildren, allBalancesChildren, allElimsChildren,
      amountOf_append, amountOf_append, amountOf_append,
      consolidateHier_amount t a, consolidateHierChildren_amount ts a]
    ring
end

/-- **C4.** For every scope tree and every account, the Hierarchical
mode and the Overall mode of the Consolidation Aggregator produce
identical final root-level consolidated totals. -/
theorem hierarchical_overall_equivalence (t : EntityTree) (a : String) :
    amountOf (consolidateHier t) a = amountOf (consolidateOverall t) a := by
  rw [consolidateOverall, amountOf_append, consolidateHier_amount]

/-- Absolute value written as the branch the source's `abs(...)` takes. -/
def ratAbs (x : ℚ) : ℚ := if x < 0 then -x else x

/-- `matching_status` of `dap_internal_transactions`
(docs/DAP_v2.0_开发计划.md, `CHECK(matching_status IN ('auto', 'manual',
'confirmed'))`), plus the spec's initial `unmatched` state. -/
inductive MatchStatus where
  | unmatched
  | auto
  | manual
  | confirmed
deriving DecidableEq, Repr

/-- A ledger-detail line offered to the matcher: source line identifier,
account code, amount, transaction date (in fractional days) and the
tokenised counterparty reference. -/
structure LedgerLine where
  lineId : Nat
  accountCode : String
  amount : ℚ
  txnDate : ℚ
  counterpartyTokens : List String
deriving DecidableEq, Repr

/-- Matcher configuration (§4.2 defaults: ±1% amount band, 7-day
window, weights 0.4/0.3/0.15/0.15, confirmation threshold 0.75,
declared complementary account pairs). -/
structure MatchConfig where
  amountTolerancePct : ℚ
  timeWindowDays : ℚ
  wAmount : ℚ
  wCounterparty : ℚ
  wTemporal : ℚ
  wFamily : ℚ
  confirmThreshold : ℚ
  complementaryPairs : List (String × String)
deriving DecidableEq, Repr

/-- Modelled from the spec: amount-proximity signal (§4.2) — 1 for an
exact match, linearly decaying to 0 at the tolerance band. -/
def amountProximity (cfg : MatchConfig) (x y : ℚ) : ℚ :=
  let d := ratAbs (x - y)
  let band := cfg.amountTolerancePct / 100 * ratAbs x
  if d = 0 then 1 else if band ≤ d then 0 else 1 - d / band

/-- Modelled from the spec: temporal-proximity signal (§4.2) — 1 at zero
gap, decaying linearly to 0 at the window, from exact fractional-day
elapsed time. -/
def temporalProximity (cfg : MatchConfig) (d1 d2 : ℚ) : ℚ :=
  let gap := ratAbs (d1 - d2)
  if cfg.timeWindowDays ≤ gap then 0 else 1 - gap / cfg.timeWindowDays

/-- Modelled from the spec: counterparty-identity token-overlap signal
(§4.2). -/
def tokenOverlap (xs ys : List String) : ℚ :=
  let inter := (xs.eraseDups.filter (fun t => ys.contains t)).length
  let uni := (xs ++ ys).eraseDups.length
  if uni = 0 then 0 else (inter : ℚ) / uni

/-- Modelled from the spec: account-family compatibility signal (§4.2) —
1 when the two accounts form a declared complementary pair. -/
def familyCompatibility (cfg : MatchConfig) (a b : String) : ℚ :=
  if cfg.complementaryPairs.contains (a, b) || cfg.complementaryPairs.contains (b, a)
  then 1 else 0

/-- Modelled from the spec: the weighted multi-signal match score
(§4.2). -/
def matchScore (cfg : MatchConfig) (x y : LedgerLine) : ℚ :=
  cfg.wAmount * amountProximity cfg x.amount y.amount +
  cfg.wCounterparty * tokenOverlap x.counterpartyTokens y.counterpartyTokens +
  cfg.wTemporal * temporalProximity cfg x.txnDate y.txnDate +
  cfg.wFamily * familyCompatibility cfg x.accountCode y.accountCode

/-- One row of `dap_internal_transactions`: the two source line
identifiers, the matched amount, the matching status and confidence. -/
structure IcTransaction where
  sellerLineId : Nat
  buyerLineId : Nat
  amount : ℚ
  matchingStatus : MatchStatus
  matchingConfidence : ℚ
deriving DecidableEq, Repr

/-- A record a human reviewer has decided (`manual` or `confirmed`). -/
def isPinned (t : IcTransaction) : Bool :=
  t.matchingStatus == .manual || t.matchingStatus == .confirmed

/-- All candidate pairs of one side's lines against the other's. -/
def candidatePairs (linesA linesB : List LedgerLine) :
    List (LedgerLine × LedgerLine) :=
  (linesA.map (fun a => linesB.map (fun b => (a, b)))).flatten

/-- Candidate pairs in descending score order. -/
def sortedCandidates (cfg : MatchConfig) (linesA linesB : List LedgerLine) :
    List (LedgerLine × LedgerLine) :=
  List.insertionSort
    (fun p q => matchScore cfg q.1 q.2 ≤ matchScore cfg p.1 p.2)
    (candidatePairs linesA linesB)

/-- Modelled from the spec: the symmetric greedy consumption pass
(§4.2) — walk candidates in descending score order; a pair scoring at
least the confirmation threshold whose lines are both still free
becomes an `auto` record and both lines are consumed. -/
def greedyMatch (cfg : MatchConfig) :
    List (LedgerLine × LedgerLine) → List Nat → List Nat → List IcTransaction
  | [], _, _ => []
  | (a, b) :: rest, usedA, usedB =>
    if cfg.confirmThreshold ≤ matchScore cfg a b ∧
        usedA.contains a.lineId = false ∧ usedB.contains b.lineId = false then
      ⟨a.lineId, b.lineId, min a.amount b.amount, .auto, matchScore cfg a b⟩ ::
        greedyMatch cfg rest (a.lineId :: usedA) (b.lineId :: usedB)
    else
      greedyMatch cfg rest usedA usedB

/-- Modelled from the spec: one matcher pass (§4.2).  Pinned
(`manual`/`confirmed`) records are kept as they are and their source
lines are withheld from auto-matching; the remaining candidates are
auto-matched greedily. -/
def runMatcher (cfg : MatchConfig) (linesA linesB : List LedgerLine)
    (pinned : List IcTransaction) : List IcTransaction :=
  pinned ++ greedyMatch cfg (sortedCandidates cfg linesA linesB)
    (pinned.map (·.sellerLineId)) (pinned.map (·.buyerLineId))

/-- Modelled from the spec: re-running the matcher over the previous
run's records (§4.2) — human-decided records are pinned, everything
else is re-derived from the (unchanged) ledger lines. -/
def rerunMatcher (cfg : MatchConfig) (prev : List IcTransaction)
    (linesA linesB : List LedgerLine) : List IcTransaction :=
  runMatcher cfg linesA linesB (prev.filter isPinned)

lemma greedyMatch_status (cfg : MatchConfig) :
    ∀ (cands : List (LedgerLine × LedgerLine)) (usedA usedB : List Nat),
      ∀ t ∈ greedyMatch cfg cands usedA usedB, t.matchingStatus = .auto := by
  intro cands
  induction cands with
  | nil => intro usedA usedB t ht; simp [greedyMatch] at ht
  | cons c rest ih =>
    intro usedA usedB t ht
    rcases c with ⟨a, b⟩
    by_cases hc : cfg.confirmThreshold ≤ matchScore cfg a b ∧
        usedA.contains a.lineId = false ∧ usedB.contains b.lineId = false
    · simp only [greedyMatch, hc, if_pos] at ht
      rcases List.mem_cons.mp ht with rfl | h
      · rfl
      · exact ih _ _ t h
    · simp only [greedyMatch, hc, if_neg, not_false_iff] at ht
      exact ih _ _ t ht

lemma greedyMatch_fresh (cfg : MatchConfig) :
    ∀ (cands : List (LedgerLine × LedgerLine)) (usedA usedB : List Nat),
      ∀ t ∈ greedyMatch cfg cands usedA usedB,
        usedA.contains t.sellerLineId = false ∧
        usedB.contains t.buyerLineId = false := by
  intro cands
  induction cands with
  | nil => intro usedA usedB t ht; simp [greedyMatch] at ht
  | cons c rest ih =>
    intro usedA usedB t ht
    rcases c with ⟨a, b⟩
    by_cases hc : cfg.confirmThreshold ≤ matchScore cfg a b ∧
        usedA.contains a.lineId = false ∧ usedB.contains b.lineId = false
    · simp only [greedyMatch, hc, if_pos] at ht
      rcases List.mem_cons.mp ht with rfl | h
      · exact ⟨hc.2.1, hc.2.2⟩
      · have h2 := ih _ _ t h
        constructor
        · have := h2.1
          simp only [List.contains_cons, Bool.or_eq_false_iff] at this
          exact this.2
        · have := h2.2
          simp only [List.contains_cons, Bool.or_eq_false_iff] at this
          exact this.2
    · simp only [greedyMatch, hc, if_neg, not_false_iff] at ht
      exact ih _ _ t ht

lemma runMatcher_no_pinned (cfg : MatchConfig) (linesA linesB : List LedgerLine) :
    (runMatcher cfg linesA linesB []).filter isPinned = [] := by
  refine List.filter_eq_nil_iff.mpr ?_
  intro t ht
  simp only [runMatcher, List.nil_append, List.map_nil] at ht
  have := greedyMatch_status cfg (sortedCandidates cfg linesA linesB) [] [] t ht
  simp [isPinned, this]

/-- **C6.** Re-running the matcher on unchanged ledger lines with no new
manual confirmations reproduces exactly the previous run's records (in
particular the same auto-matched set); and any previous record with
`manual`/`confirmed` status is carried into the re-run's output
unchanged, while no non-pinned (freshly auto-matched) record of the
re-run touches that record's source lines — it is never re-scored or
overwritten. -/
theorem matcher_determinism_and_pinning (cfg : MatchConfig)
    (linesA linesB : List LedgerLine) (prev : List IcTransaction)
    (t : IcTransaction) (ht : t ∈ prev)
    (hpin : t.matchingStatus = .manual ∨ t.matchingStatus = .confirmed) :
    rerunMatcher cfg (runMatcher cfg linesA linesB []) linesA linesB =
      runMatcher cfg linesA linesB [] ∧
    t ∈ rerunMatcher cfg prev linesA linesB ∧
    (rerunMatcher cfg prev linesA linesB).filter
      (fun u => !(isPinned u) &&
        (u.sellerLineId == t.sellerLineId || u.buyerLineId == t.buyerLineId)) = [] := by
  have htpin : isPinned t = true := by
    rcases hpin with h | h <;> simp [isPinned, h]
  have htf : t ∈ prev.filter isPinned := List.mem_filter.mpr ⟨ht, htpin⟩
  refine ⟨?_, ?_, ?_⟩
  · unfold rerunMatcher
    rw [runMatcher_no_pinned]
  · unfold rerunMatcher runMatcher
    exact List.mem_append.mpr (Or.inl htf)
  · refine List.filter_eq_nil_iff.mpr ?_
    intro u hu
    unfold rerunMatcher runMatcher at hu
    rcases List.mem_append.mp hu with h | h
    · have : isPinned u = true := (List.mem_filter.mp h).2
      simp [this]
    · have hfresh := greedyMatch_fresh cfg _ _ _ u h
      have hs : u.sellerLineId ≠ t.sellerLineId := by
        intro heq
        have : ((prev.filter isPinned).map (·.sellerLineId)).contains u.sellerLineId = true := by
          rw [heq]
          exact List.elem_eq_true_of_mem (List.mem_map.mpr ⟨t, htf, rfl⟩)
        rw [hfresh.1] at this
        exact Bool.false_ne_true this
      have hb : u.buyerLineId ≠ t.buyerLineId := by
        intro heq
        have : ((prev.filter isPinned).map (·.buyerLineId)).contains u.buyerLineId = true := by
          rw [heq]
          exact List.elem_eq_true_of_mem (List.mem_map.mpr ⟨t, htf, rfl⟩)
        rw [hfresh.2] at this
        exact Bool.false_ne_true this
      simp [hs, hb]

/-- Witness for C6: a confirmed record over lines (1, 2) with no ledger
lines offered; the re-run keeps it and produces nothing that touches
its lines. -/
theorem matcher_determinism_and_pinning_witness :
    rerunMatcher ⟨1, 7, 1, 1, 1, 1, 1, []⟩
        (runMatcher ⟨1, 7, 1, 1, 1, 1, 1, []⟩ [] [] []) [] [] =
      runMatcher ⟨1, 7, 1, 1, 1, 1, 1, []⟩ [] [] [] ∧
    (⟨1, 2, 500, .confirmed, 1⟩ : IcTransaction) ∈
      rerunMatcher ⟨1, 7, 1, 1, 1, 1, 1, []⟩ [⟨1, 2, 500, .confirmed, 1⟩] [] [] ∧
    (rerunMatcher ⟨1, 7, 1, 1, 1, 1, 1, []⟩ [⟨1, 2, 500, .confirmed, 1⟩] [] []).filter
      (fun u => !(isPinned u) && (u.sellerLineId == 1 || u.buyerLineId == 2)) = [] :=
  matcher_determinism_and_pinning ⟨1, 7, 1, 1, 1, 1, 1, []⟩ [] []
    [⟨1, 2, 500, .confirmed, 1⟩] ⟨1, 2, 500, .confirmed, 1⟩
    (by decide) (Or.inr (by decide))

/-- Hierarchy-store well-formedness, part 1: entity identifiers are
unique (one stored row — hence one `parent_entity_id` — per entity). -/
def uniqueIds (s : List GroupEntity) : Prop :=
  (s.map (·.entityId)).Nodup

instance uniqueIdsDecidable (s : List GroupEntity) : Decidable (uniqueIds s) :=
  inferInstanceAs (Decidable (List.Nodup (List.map (fun e : GroupEntity => e.entityId) s)))

/-- Hierarchy-store well-formedness, part 2: a root entity has level 1
and every child's level is its stored parent's level plus one. -/
def levelsOkB (s : List GroupEntity) : Bool :=
  s.all (fun e =>
    match e.parentEntityId with
    | none => e.level == 1
    | some p => s.any (fun pe => pe.entityId == p && e.level == pe.level + 1))

lemma length_filter_id_le_one (s : List GroupEntity)
    (h : (s.map (·.entityId)).Nodup) (id : String) :
    (s.filter (fun e => e.entityId == id)).length ≤ 1 := by
  induction s with
  | nil => simp
  | cons e t ih =>
    rw [List.map_cons, List.nodup_cons] at h
    by_cases he : e.entityId == id
    · have htail : t.filter (fun x => x.entityId == id) = [] := by
        refine List.filter_eq_nil_iff.mpr ?_
        intro x hx hxe
        apply h.1
        have hx' : x.entityId = id := by simpa using hxe
        have he' : e.entityId = id := by simpa using he
        rw [he', ← hx']
        exact List.mem_map.mpr ⟨x, hx, rfl⟩
      simp [List.filter_cons, he, htail]
    · simp only [List.filter_cons, he, if_neg, Bool.false_eq_true, not_false_iff]
      exact ih h.2

/-- **C10.** The hierarchy store records at most one direct parent per
entity (with unique identifiers there is at most one stored row — and
hence at most one `parent_entity_id` — per entity id), `add_entity`
assigns a parented entity's level as its parent's level plus one and
level 1 to a parentless entity, both well-formedness invariants are
preserved (the store remains a forest), and yet the separate
`equity_relations` table accepts two different investors for the same
investee. -/
theorem single_parent_forest (s s' : List GroupEntity) (eid : String)
    (pid : Option String) (hu : uniqueIds s) (hl : levelsOkB s = true)
    (hnew : eid ∉ s.map (·.entityId)) (hadd : addEntity s eid pid = .ok s') :
    (uniqueIds s' ∧ levelsOkB s' = true) ∧
    (∀ id : String, (s'.filter (fun e => e.entityId == id)).length ≤ 1) ∧
    (pid = none → (⟨eid, none, 1⟩ : GroupEntity) ∈ s') ∧
    (∀ p, pid = some p → ∃ pl, getEntityLevel s p = some pl ∧
      (⟨eid, some p, pl + 1⟩ : GroupEntity) ∈ s') ∧
    addOwnershipEdge [] ⟨"A", "C", 60⟩ = (true, [⟨"A", "C", 60⟩]) ∧
    addOwnershipEdge [⟨"A", "C", 60⟩] ⟨"B", "C", 40⟩ =
      (true, [⟨"B", "C", 40⟩, ⟨"A", "C", 60⟩]) := by
  have hnewX : ∀ x : GroupEntity, x.entityId = eid → x ∉ s := by
    intro x hx hmem
    exact hnew (hx ▸ List.mem_map.mpr ⟨x, hmem, rfl⟩)
  -- analyse the insertion
  have hmain : ∃ newe : GroupEntity, s' = s ++ [newe] ∧ newe.entityId = eid ∧
      ((pid = none ∧ newe = ⟨eid, none, 1⟩) ∨
        (∃ p pl, pid = some p ∧ getEntityLevel s p = some pl ∧
          newe = ⟨eid, some p, pl + 1⟩)) := by
    rcases pid with _ | p
    · have hadd2 : Except.ok (s ++ [(⟨eid, none, 1⟩ : GroupEntity)]) =
          Except.ok s' := hadd
      exact ⟨⟨eid, none, 1⟩, (Except.ok.inj hadd2).symm, rfl, Or.inl ⟨rfl, rfl⟩⟩
    · have hadd2 : (match getEntityLevel s p with
          | none => (Except.error "parent entity not found" :
              Except String (List GroupEntity))
          | some pl =>
            if 6 ≤ pl then Except.error "maximum hierarchy depth (6 levels) reached"
            else Except.ok (s ++ [⟨eid, some p, pl + 1⟩])) = Except.ok s' := hadd
      cases hlev : getEntityLevel s p with
      | none =>
        rw [hlev] at hadd2
        exact absurd hadd2 (by simp)
      | some pl =>
        rw [hlev] at hadd2
        have hadd3 : (if 6 ≤ pl then
            (Except.error "maximum hierarchy depth (6 levels) reached" :
              Except String (List GroupEntity))
            else Except.ok (s ++ [⟨eid, some p, pl + 1⟩])) = Except.ok s' := hadd2
        by_cases h6 : 6 ≤ pl
        · rw [if_pos h6] at hadd3
          exact absurd hadd3 (by simp)
        · rw [if_neg h6] at hadd3
          exact ⟨⟨eid, some p, pl + 1⟩, (Except.ok.inj hadd3).symm, rfl,
            Or.inr ⟨p, pl, rfl, hlev, rfl⟩⟩
  rcases hmain with ⟨newe, hs', hide, hshape⟩
  have hu' : uniqueIds s' := by
    rw [hs']
    unfold uniqueIds at hu ⊢
    rw [List.map_append]
    refine List.nodup_append.mpr ⟨hu, by simp, ?_⟩
    intro a ha hb
    simp only [List.map_cons, List.map_nil, List.mem_singleton] at hb
    have haeid : a = eid := by rw [hb, hide]
    rw [haeid] at ha
    exact hnew ha
  refine ⟨⟨hu', ?_⟩, ?_, ?_, ?_, by decide, by decide⟩
  · -- levels stay consistent
    rw [hs']
    refine List.all_eq_true.mpr ?_
    intro e he
    rcases List.mem_append.mp he with hmem | hmem
    · -- an old row: its parent witness stays in the extended store
      have hold := List.all_eq_true.mp hl e hmem
      match hp : e.parentEntityId, hold with
      | none, hold => exact hold
      | some p, hold =>
        rcases List.any_eq_true.mp hold with ⟨pe, hpe, hgood⟩
        exact List.any_eq_true.mpr ⟨pe, List.mem_append.mpr (Or.inl hpe), hgood⟩
    · -- the new row
      rcases List.mem_singleton.mp hmem with rfl
      rcases hshape with ⟨_, rfl⟩ | ⟨p, pl, _, hlev, rfl⟩
      · simp
      · rcases Option.map_eq_some'.mp hlev with ⟨pe, hfind, hplev⟩
        have hpemem : pe ∈ s := List.mem_of_find?_eq_some hfind
        have hpeid := List.find?_some hfind
        refine List.any_eq_true.mpr ⟨pe, List.mem_append.mpr (Or.inl hpemem), ?_⟩
        simp only [Bool.and_eq_true]
        refine ⟨hpeid, ?_⟩
        simp [hplev]
  · intro id
    exact length_filter_id_le_one s' hu' id
  · intro hnone
    rcases hshape with ⟨_, rfl⟩ | ⟨p, pl, hsome, _, _⟩
    · rw [hs']
      exact List.mem_append_right s (List.mem_singleton_self _)
    · rw [hnone] at hsome
      exact absurd hsome (by simp)
  · intro p hp
    rcases hshape with ⟨hnone, _⟩ | ⟨p', pl, hsome, hlev, rfl⟩
    · rw [hp] at hnone
      exact absurd hnone (by simp)
    · rw [hp] at hsome
      rcases Option.some.inj hsome with rfl
      refine ⟨pl, hlev, ?_⟩
      rw [hs']
      exact List.mem_append_right s (List.mem_singleton_self _)

/-- Witness for C10: a two-entity store (root r1 at level 1, child r2 at
level 2) extended with a child of r2; all conclusions hold there. -/
theorem single_parent_forest_witness :
    (uniqueIds [⟨"r1", none, 1⟩, ⟨"r2", some "r1", 2⟩,
        ⟨"r3", some "r2", 3⟩] ∧
      levelsOkB [⟨"r1", none, 1⟩, ⟨"r2", some "r1", 2⟩,
        ⟨"r3", some "r2", 3⟩] = true) ∧
    (∀ id : String, (([⟨"r1", none, 1⟩, ⟨"r2", some "r1", 2⟩,
        ⟨"r3", some "r2", 3⟩] : List GroupEntity).filter
          (fun e => e.entityId == id)).length ≤ 1) ∧
    ((some "r2" : Option String) = none →
      (⟨"r3", none, 1⟩ : GroupEntity) ∈
        [⟨"r1", none, 1⟩, ⟨"r2", some "r1", 2⟩, ⟨"r3", some "r2", 3⟩]) ∧
    (∀ p, (some "r2" : Option String) = some p →
      ∃ pl, getEntityLevel [⟨"r1", none, 1⟩, ⟨"r2", some "r1", 2⟩] p = some pl ∧
        (⟨"r3", some p, pl + 1⟩ : GroupEntity) ∈
          [⟨"r1", none, 1⟩, ⟨"r2", some "r1", 2⟩, ⟨"r3", some "r2", 3⟩]) ∧
    addOwnershipEdge [] ⟨"A", "C", 60⟩ = (true, [⟨"A", "C", 60⟩]) ∧
    addOwnershipEdge [⟨"A", "C", 60⟩] ⟨"B", "C", 40⟩ =
      (true, [⟨"B", "C", 40⟩, ⟨"A", "C", 60⟩]) :=
  single_parent_forest [⟨"r1", none, 1⟩, ⟨"r2", some "r1", 2⟩]
    [⟨"r1", none, 1⟩, ⟨"r2", some "r1", 2⟩, ⟨"r3", some "r2", 3⟩]
    "r3" (some "r2") (by decide) (by decide) (by decide) (by rfl)

end DAP
